import Mathlib

/-!
Verification development for the BwPCatalogManagement repository: a shallow
embedding of the catalog-reconciliation engine, the batch/webhook sync
handlers, the OAuth install/callback handlers for both platforms, the token
refresh sweep and the signature verifiers, together with theorems settling
the specification's claims about them.
-/

set_option maxHeartbeats 1000000

namespace BwpSync

/-! ## Product data model

Embeds the JS product objects flowing through `event.mjs` / `webhook.mjs`.
A Shopline product carries at least `id`, `title`, `description`, `price`;
payloads also carry an `updatedAt` timestamp which the sync code never
reads (`compareProducts` only looks at the three content fields).  A BWP
product carries `id`, `title`, `description`, `price`; the body built by
`convertToBWPFormat` carries only the three content fields (the id travels
in the request URL). -/

structure Product where
  id : String
  title : String
  description : String
  price : Int
  updatedAt : Int
deriving DecidableEq, Repr

structure BwpProduct where
  id : String
  title : String
  description : String
  price : Int
deriving DecidableEq, Repr

structure BwpData where
  title : String
  description : String
  price : Int
deriving DecidableEq, Repr

/-- Embeds `compareProducts` from `event.mjs` / `webhook.mjs`: true iff any
of title, description, price differs. -/
def compareProducts (a : Product) (b : BwpProduct) : Bool :=
  a.title != b.title || a.description != b.description || a.price != b.price

/-- Embeds `convertToBWPFormat`: projects the three content fields. -/
def convertToBWPFormat (a : Product) : BwpData :=
  ⟨a.title, a.description, a.price⟩

/-- Embeds `bwpProducts.find(p => p.id === shoplineProduct.id)`. -/
def findB (bs : List BwpProduct) (pid : String) : Option BwpProduct :=
  bs.find? (fun b => b.id == pid)

inductive Action where
  | create
  | update
  | skipped
deriving DecidableEq, Repr

/-- Embeds the per-product branch of the `event.mjs` handler loop:
`if (bwpProduct && compareProducts(..)) update else if (!bwpProduct) create
else skipped`. -/
def decideAction (a : Product) (bs : List BwpProduct) : Action :=
  match findB bs a.id with
  | some b => if compareProducts a b then .update else .skipped
  | none => .create

/-- C1 -- For every Platform-A product and Platform-B list, the
reconciliation step chooses exactly one action: `create` iff no product
with the same id exists on B, `update` iff a counterpart exists and one of
title/description/price differs, `skipped` iff a counterpart exists and all
three agree; the comparison looks only at those three fields (the
`updatedAt` timestamp is ignored). -/
theorem reconcile_action_rule (a : Product) (bs : List BwpProduct) :
    (findB bs a.id = none ↔ ∀ b ∈ bs, b.id ≠ a.id)
    ∧ (findB bs a.id = none → decideAction a bs = .create)
    ∧ (∀ b, findB bs a.id = some b →
        (decideAction a bs = .update ↔
          ¬(a.title = b.title ∧ a.description = b.description ∧ a.price = b.price)))
    ∧ (∀ b, findB bs a.id = some b →
        (decideAction a bs = .skipped ↔
          (a.title = b.title ∧ a.description = b.description ∧ a.price = b.price)))
    ∧ (∀ t : Int, decideAction { a with updatedAt := t } bs = decideAction a bs) := by
  refine ⟨?_, ?_, ?_, ?_, ?_⟩
  · simp [findB, List.find?_eq_none]
  · intro h
    simp [decideAction, h]
  · intro b hb
    simp only [decideAction, hb]
    by_cases hc : compareProducts a b
    · simp only [hc, if_true, true_iff]
      intro ⟨h1, h2, h3⟩
      simp [compareProducts, h1, h2, h3] at hc
    · simp only [hc]
      simp only [compareProducts, Bool.or_eq_true, bne_iff_ne] at hc
      push_neg at hc
      obtain ⟨⟨h1, h2⟩, h3⟩ := hc
      simp [h1, h2, h3]
  · intro b hb
    simp only [decideAction, hb]
    by_cases hc : compareProducts a b
    · simp only [hc, if_true]
      constructor
      · intro h; cases h
      · intro ⟨h1, h2, h3⟩
        simp [compareProducts, h1, h2, h3] at hc
    · simp only [hc]
      simp only [compareProducts, Bool.or_eq_true, bne_iff_ne] at hc
      push_neg at hc
      obtain ⟨⟨h1, h2⟩, h3⟩ := hc
      simp [h1, h2, h3]
  · intro t
    simp [decideAction, findB, compareProducts]

/-- Witness for `reconcile_action_rule` at concrete inputs: absent on B
gives `create`; identical counterpart gives `skipped`. -/
theorem reconcile_action_rule_witness :
    decideAction ⟨"p1", "Mug", "d", 999, 0⟩ [] = Action.create
    ∧ decideAction ⟨"p1", "Mug", "d", 999, 0⟩ [⟨"p1", "Mug", "d", 999⟩] = Action.skipped := by
  refine ⟨(reconcile_action_rule ⟨"p1", "Mug", "d", 999, 0⟩ []).2.1 rfl, ?_⟩
  exact ((reconcile_action_rule ⟨"p1", "Mug", "d", 999, 0⟩
    [⟨"p1", "Mug", "d", 999⟩]).2.2.2.1 ⟨"p1", "Mug", "d", 999⟩ rfl).mpr ⟨rfl, rfl, rfl⟩

/-! ## Batch sync handler (`event.mjs`)

The scheduled handler scans all Shopline stores, skips stores with no
`bwpInstallationId`, fetches both product lists, and for each Shopline
product decides create/update/skip and pushes via `updateBWPProduct`.
The whole store loop sits inside one `try`; any thrown error ends the run
with a 500 response.  The only per-product artifact the code produces is a
`console.log` line per product after a successful push (or for a skip);
these are embedded as `SyncRecord`s.  Platform calls are embedded as
environment functions returning `Except Unit`. -/

structure Store where
  id : String
  bwpInstallationId : Option String
deriving DecidableEq, Repr

structure SyncRecord where
  storeId : String
  productId : String
  action : Action
deriving DecidableEq, Repr

structure Response where
  statusCode : Nat
  body : String
deriving DecidableEq, Repr

structure BatchEnv where
  getA : String -> Except Unit (List Product)
  getB : String -> Except Unit (List BwpProduct)
  push : String -> String -> BwpData -> Except Unit Unit

/-- Embeds the inner `for (const shoplineProduct of shoplineProducts)` loop
of the `event.mjs` handler.  Accumulates the per-product log records and
the successful pushes; a failed push throws, which surfaces here as the
`false` flag with the loop abandoned. -/
def runProducts (env : BatchEnv) (instId storeId : String) (bs : List BwpProduct) :
    List Product -> List SyncRecord -> List (String × BwpData) ->
    List SyncRecord × List (String × BwpData) × Bool
  | [], recs, pshs => (recs, pshs, true)
  | a :: rest, recs, pshs =>
    match decideAction a bs with
    | .update =>
      match env.push instId a.id (convertToBWPFormat a) with
      | .error _ => (recs, pshs, false)
      | .ok _ => runProducts env instId storeId bs rest
          (recs ++ [⟨storeId, a.id, .update⟩]) (pshs ++ [(a.id, convertToBWPFormat a)])
    | .create =>
      match env.push instId a.id (convertToBWPFormat a) with
      | .error _ => (recs, pshs, false)
      | .ok _ => runProducts env instId storeId bs rest
          (recs ++ [⟨storeId, a.id, .create⟩]) (pshs ++ [(a.id, convertToBWPFormat a)])
    | .skipped => runProducts env instId storeId bs rest
        (recs ++ [⟨storeId, a.id, .skipped⟩]) pshs

/-- Embeds the outer `for (const store of stores)` loop of the `event.mjs`
handler: a store with no `bwpInstallationId` is skipped with `continue`;
any thrown adapter error ends the whole loop (`false` flag). -/
def runStores (env : BatchEnv) :
    List Store -> List SyncRecord -> List (String × BwpData) ->
    List SyncRecord × List (String × BwpData) × Bool
  | [], recs, pshs => (recs, pshs, true)
  | s :: rest, recs, pshs =>
    match s.bwpInstallationId with
    | none => runStores env rest recs pshs
    | some inst =>
      match env.getA s.id with
      | .error _ => (recs, pshs, false)
      | .ok aL =>
        match env.getB inst with
        | .error _ => (recs, pshs, false)
        | .ok bL =>
          match runProducts env inst s.id bL aL recs pshs with
          | (recs2, pshs2, true) => runStores env rest recs2 pshs2
          | (recs2, pshs2, false) => (recs2, pshs2, false)

/-- Embeds the `event.mjs` handler: the loop inside `try`, with the `catch`
returning the 500 response. -/
def batchHandler (env : BatchEnv) (stores : List Store) :
    List SyncRecord × List (String × BwpData) × Response :=
  match runStores env stores [] [] with
  | (recs, pshs, true) => (recs, pshs, ⟨200, "Product sync completed successfully"⟩)
  | (recs, pshs, false) => (recs, pshs, ⟨500, "Failed to process event"⟩)

/-- The pushes the loop issues for a product list against a fixed B list:
`(productId, converted body)` for every non-skipped product, in order. -/
def pushesFor (aL : List Product) (bL : List BwpProduct) : List (String × BwpData) :=
  aL.filterMap fun a =>
    match decideAction a bL with
    | .skipped => none
    | _ => some (a.id, convertToBWPFormat a)

/-- When every needed push succeeds, the product loop emits exactly one
record per product (carrying the decided action) and exactly the pushes of
`pushesFor`, and reports success. -/
theorem runProducts_all_ok (env : BatchEnv) (instId storeId : String)
    (bL : List BwpProduct) :
    ∀ (aL : List Product) (recs : List SyncRecord) (pshs : List (String × BwpData)),
    (∀ a ∈ aL, decideAction a bL = .skipped ∨
      env.push instId a.id (convertToBWPFormat a) = .ok ()) →
    runProducts env instId storeId bL aL recs pshs
      = (recs ++ aL.map (fun a => ⟨storeId, a.id, decideAction a bL⟩),
         pshs ++ pushesFor aL bL, true)
  | [], recs, pshs, _ => by simp [runProducts, pushesFor]
  | a :: rest, recs, pshs, h => by
    have ha := h a (List.mem_cons_self a rest)
    have hrest : ∀ x ∈ rest, decideAction x bL = .skipped ∨
        env.push instId x.id (convertToBWPFormat x) = .ok () :=
      fun x hx => h x (List.mem_cons_of_mem a hx)
    cases hda : decideAction a bL with
    | skipped =>
      simp only [runProducts, hda]
      rw [runProducts_all_ok env instId storeId bL rest _ _ hrest]
      simp [pushesFor, List.filterMap_cons, hda]
    | create =>
      rcases ha with ha | ha
      · rw [hda] at ha; cases ha
      · simp only [runProducts, hda, ha]
        rw [runProducts_all_ok env instId storeId bL rest _ _ hrest]
        simp [pushesFor, List.filterMap_cons, hda]
    | update =>
      rcases ha with ha | ha
      · rw [hda] at ha; cases ha
      · simp only [runProducts, hda, ha]
        rw [runProducts_all_ok env instId storeId bL rest _ _ hrest]
        simp [pushesFor, List.filterMap_cons, hda]

/-- A run of the product loop that reports success issued exactly the
pushes of `pushesFor`. -/
theorem runProducts_true_pushes (env : BatchEnv) (instId storeId : String)
    (bL : List BwpProduct) :
    ∀ (aL : List Product) (recs : List SyncRecord) (pshs : List (String × BwpData))
      (recs2 : List SyncRecord) (pshs2 : List (String × BwpData)),
    runProducts env instId storeId bL aL recs pshs = (recs2, pshs2, true) →
    pshs2 = pshs ++ pushesFor aL bL
  | [], recs, pshs, recs2, pshs2, h => by
    simp only [runProducts, Prod.mk.injEq] at h
    simp [pushesFor, ← h.2.1]
  | a :: rest, recs, pshs, recs2, pshs2, h => by
    cases hda : decideAction a bL with
    | skipped =>
      simp only [runProducts, hda] at h
      have := runProducts_true_pushes env instId storeId bL rest _ _ _ _ h
      simpa [pushesFor, List.filterMap_cons, hda] using this
    | create =>
      simp only [runProducts, hda] at h
      cases hp : env.push instId a.id (convertToBWPFormat a) with
      | error e => rw [hp] at h; simp at h
      | ok u =>
        rw [hp] at h
        have := runProducts_true_pushes env instId storeId bL rest _ _ _ _ h
        simpa [pushesFor, List.filterMap_cons, hda] using this
    | update =>
      simp only [runProducts, hda] at h
      cases hp : env.push instId a.id (convertToBWPFormat a) with
      | error e => rw [hp] at h; simp at h
      | ok u =>
        rw [hp] at h
        have := runProducts_true_pushes env instId storeId bL rest _ _ _ _ h
        simpa [pushesFor, List.filterMap_cons, hda] using this

/-- C2 (amended) -- Fault isolation does not hold: the batch handler wraps
the whole store loop in a single try/catch, so when a tenant's product
fetch fails the run aborts at that tenant.  With the failing tenant at the
head of the scan, the run ends immediately: no further tenant is processed,
no records or pushes are produced beyond those already accumulated, and the
handler returns the 500 "Failed to process event" response. -/
theorem batch_abort_on_tenant_failure (env : BatchEnv) (s : Store)
    (rest : List Store) (recs : List SyncRecord) (pshs : List (String × BwpData))
    (inst : String) (hlink : s.bwpInstallationId = some inst)
    (hfail : env.getA s.id = .error ()) :
    runStores env (s :: rest) recs pshs = (recs, pshs, false)
    ∧ batchHandler env (s :: rest) = ([], [], ⟨500, "Failed to process event"⟩) := by
  have h1 : runStores env (s :: rest) recs pshs = (recs, pshs, false) := by
    simp [runStores, hlink, hfail]
  refine ⟨h1, ?_⟩
  have h2 : runStores env (s :: rest) [] [] = ([], [], false) := by
    simp [runStores, hlink, hfail]
  simp [batchHandler, h2]

/-- Witness for `batch_abort_on_tenant_failure` at a concrete environment
with two linked tenants where the first tenant's fetch fails. -/
theorem batch_abort_on_tenant_failure_witness :
    batchHandler
      { getA := fun h => if h == "t1" then .error () else .ok [⟨"p2", "T", "D", 5, 0⟩],
        getB := fun _ => .ok [],
        push := fun _ _ _ => .ok () }
      [⟨"t1", some "i1"⟩, ⟨"t2", some "i2"⟩]
      = ([], [], ⟨500, "Failed to process event"⟩) :=
  (batch_abort_on_tenant_failure
    { getA := fun h => if h == "t1" then .error () else .ok [⟨"p2", "T", "D", 5, 0⟩],
      getB := fun _ => .ok [],
      push := fun _ _ _ => .ok () }
    ⟨"t1", some "i1"⟩ [⟨"t2", some "i2"⟩] [] [] "i1" rfl rfl).2

/-- C2 (counterexample) -- Refutes the claim as stated: with two linked
tenants where only tenant `t1`'s adapter call fails, the batch run does not
produce outcome records for both tenants with only `t1` failed; it produces
no records at all and returns a 500 error, and tenant `t2` — which in the
same environment with `t1`'s fetch repaired yields a `create` record and a
push — is never processed. -/
theorem batch_fault_isolation_counterexample :
    batchHandler
      { getA := fun h => if h == "t1" then .error () else .ok [⟨"p2", "T", "D", 5, 0⟩],
        getB := fun _ => .ok [],
        push := fun _ _ _ => .ok () }
      [⟨"t1", some "i1"⟩, ⟨"t2", some "i2"⟩]
      = ([], [], ⟨500, "Failed to process event"⟩)
    ∧ batchHandler
      { getA := fun _ => .ok [⟨"p2", "T", "D", 5, 0⟩],
        getB := fun _ => .ok [],
        push := fun _ _ _ => .ok () }
      [⟨"t1", some "i1"⟩, ⟨"t2", some "i2"⟩]
      = ([⟨"t1", "p2", .create⟩, ⟨"t2", "p2", .create⟩],
         [("p2", ⟨"T", "D", 5⟩), ("p2", ⟨"T", "D", 5⟩)],
         ⟨200, "Product sync completed successfully"⟩) := by
  exact ⟨rfl, rfl⟩

/-- C5 (amended) -- The code writes no durable outcome records; its only
per-product artifact is one log line per product, and that is emitted only
when the product's push (if any) succeeds: when every needed push succeeds
the loop emits exactly one record per reconciled product carrying the
decided action; when a product's push fails the loop aborts with no record
for that product or any later one. -/
theorem one_record_per_product_only_on_success :
    (∀ (env : BatchEnv) (instId storeId : String) (bL : List BwpProduct)
       (aL : List Product) (recs : List SyncRecord) (pshs : List (String × BwpData)),
      (∀ a ∈ aL, decideAction a bL = .skipped ∨
        env.push instId a.id (convertToBWPFormat a) = .ok ()) →
      runProducts env instId storeId bL aL recs pshs
        = (recs ++ aL.map (fun a => ⟨storeId, a.id, decideAction a bL⟩),
           pshs ++ pushesFor aL bL, true))
    ∧ (∀ (env : BatchEnv) (instId storeId : String) (bL : List BwpProduct)
         (a : Product) (rest : List Product) (recs : List SyncRecord)
         (pshs : List (String × BwpData)),
        decideAction a bL ≠ .skipped →
        env.push instId a.id (convertToBWPFormat a) = .error () →
        runProducts env instId storeId bL (a :: rest) recs pshs = (recs, pshs, false)) := by
  constructor
  · exact fun env instId storeId bL aL recs pshs h =>
      runProducts_all_ok env instId storeId bL aL recs pshs h
  · intro env instId storeId bL a rest recs pshs hskip hfail
    cases hda : decideAction a bL with
    | skipped => exact absurd hda hskip
    | create => simp [runProducts, hda, hfail]
    | update => simp [runProducts, hda, hfail]

/-- Witness for `one_record_per_product_only_on_success`: a concrete run
with one product needing a create whose push succeeds yields exactly one
record; the same run with the push failing yields none. -/
theorem one_record_per_product_only_on_success_witness :
    runProducts
      { getA := fun _ => .ok [], getB := fun _ => .ok [], push := fun _ _ _ => .ok () }
      "i" "s" [] [⟨"p1", "Mug", "d", 999, 0⟩] [] []
      = ([⟨"s", "p1", .create⟩], [("p1", ⟨"Mug", "d", 999⟩)], true)
    ∧ runProducts
      { getA := fun _ => .ok [], getB := fun _ => .ok [], push := fun _ _ _ => .error () }
      "i" "s" [] [⟨"p1", "Mug", "d", 999, 0⟩] [] []
      = ([], [], false) := by
  constructor
  · exact one_record_per_product_only_on_success.1
      { getA := fun _ => .ok [], getB := fun _ => .ok [], push := fun _ _ _ => .ok () }
      "i" "s" [] [⟨"p1", "Mug", "d", 999, 0⟩] [] [] (fun a _ => Or.inr rfl)
  · exact one_record_per_product_only_on_success.2
      { getA := fun _ => .ok [], getB := fun _ => .ok [], push := fun _ _ _ => .error () }
      "i" "s" [] ⟨"p1", "Mug", "d", 999, 0⟩ [] [] [] (by decide) rfl

/-- C5 (counterexample) -- Refutes the claim as stated: one linked tenant
with one product whose decided action is `create`, but the push to
Platform B fails; the run produces zero records for that reconciled
product (and a 500 response) instead of one record regardless of push
failure. -/
theorem record_despite_failure_counterexample :
    batchHandler
      { getA := fun _ => .ok [⟨"p1", "Mug", "d", 999, 0⟩],
        getB := fun _ => .ok [],
        push := fun _ _ _ => .error () }
      [⟨"t1", some "i1"⟩]
      = ([], [], ⟨500, "Failed to process event"⟩) := by
  exact rfl

/-! ## Effect of a successful push on Platform B -/

/-- Modelled from the spec: the effect of a successful upsert push
(`updateBWPProduct` PUT keyed by product id) on Platform B's product list,
which is external to this repository.  The store is keyed by product id:
a push replaces the fields of the entries carrying that id, or appends a
new entry when the id is absent. -/
def applyPush (bs : List BwpProduct) (p : String × BwpData) : List BwpProduct :=
  if bs.any (fun b => b.id == p.1) then
    bs.map (fun b =>
      if b.id == p.1 then ⟨b.id, p.2.title, p.2.description, p.2.price⟩ else b)
  else bs ++ [⟨p.1, p.2.title, p.2.description, p.2.price⟩]

theorem find?_map_replace_ne (bs : List BwpProduct) (pid q : String) (d : BwpData)
    (h : pid ≠ q) :
    (bs.map (fun b =>
        if b.id == pid then (⟨b.id, d.title, d.description, d.price⟩ : BwpProduct) else b)).find?
        (fun b => b.id == q)
      = bs.find? (fun b => b.id == q) := by
  induction bs with
  | nil => rfl
  | cons b t ih =>
    rw [List.map_cons]
    by_cases hb : (b.id == pid) = true
    · rw [if_pos hb]
      by_cases h2 : (b.id == q) = true
      · exact absurd (((beq_iff_eq ..).1 hb).symm.trans ((beq_iff_eq ..).1 h2)) h
      · rw [@List.find?_cons_of_neg BwpProduct (fun x => x.id == q)
              ⟨b.id, d.title, d.description, d.price⟩
              (List.map (fun x => if x.id == pid then
                (⟨x.id, d.title, d.description, d.price⟩ : BwpProduct) else x) t)
              (by simpa using h2),
            @List.find?_cons_of_neg BwpProduct (fun x => x.id == q) b t h2]
        exact ih
    · rw [if_neg hb]
      by_cases h2 : (b.id == q) = true
      · rw [@List.find?_cons_of_pos BwpProduct (fun x => x.id == q) b
              (List.map (fun x => if x.id == pid then
                (⟨x.id, d.title, d.description, d.price⟩ : BwpProduct) else x) t) h2,
            @List.find?_cons_of_pos BwpProduct (fun x => x.id == q) b t h2]
      · rw [@List.find?_cons_of_neg BwpProduct (fun x => x.id == q) b
              (List.map (fun x => if x.id == pid then
                (⟨x.id, d.title, d.description, d.price⟩ : BwpProduct) else x) t) h2,
            @List.find?_cons_of_neg BwpProduct (fun x => x.id == q) b t h2]
        exact ih

theorem find?_map_replace_self (bs : List BwpProduct) (pid : String) (d : BwpData)
    (hany : bs.any (fun b => b.id == pid) = true) :
    (bs.map (fun b =>
        if b.id == pid then (⟨b.id, d.title, d.description, d.price⟩ : BwpProduct) else b)).find?
        (fun b => b.id == pid)
      = some ⟨pid, d.title, d.description, d.price⟩ := by
  induction bs with
  | nil => cases hany
  | cons b t ih =>
    rw [List.map_cons]
    by_cases hb : (b.id == pid) = true
    · rw [if_pos hb, List.find?_cons_of_pos _ (by simpa using hb)]
      rw [(beq_iff_eq ..).1 hb]
    · rw [if_neg hb, List.find?_cons_of_neg _ (by simpa using hb)]
      refine ih ?_
      simpa [hb] using hany

theorem findB_applyPush_self (bs : List BwpProduct) (pid : String) (d : BwpData) :
    findB (applyPush bs (pid, d)) pid = some ⟨pid, d.title, d.description, d.price⟩ := by
  unfold applyPush findB
  by_cases hany : bs.any (fun b => b.id == pid) = true
  · rw [if_pos hany]
    exact find?_map_replace_self bs pid d hany
  · rw [if_neg hany, List.find?_append]
    have hnone : bs.find? (fun b => b.id == pid) = none := by
      rw [List.find?_eq_none]
      intro x hx
      have := (List.any_eq_false).1 (Bool.eq_false_iff.2 hany) x hx
      simpa using this
    simp [hnone]

theorem findB_applyPush_ne (bs : List BwpProduct) (p : String × BwpData) (q : String)
    (h : p.1 ≠ q) :
    findB (applyPush bs p) q = findB bs q := by
  obtain ⟨pid, d⟩ := p
  unfold applyPush findB
  by_cases hany : bs.any (fun b => b.id == pid) = true
  · rw [if_pos hany]
    exact find?_map_replace_ne bs pid q d h
  · rw [if_neg hany, List.find?_append]
    have hsingle : ([(⟨pid, d.title, d.description, d.price⟩ : BwpProduct)].find?
        (fun b => b.id == q)) = none := by
      simp [List.find?, show (pid == q) = false by simpa using h]
    cases hfind : bs.find? (fun b => b.id == q) <;> simp [hsingle, hfind]

theorem findB_foldl_applyPush_ne (q : String) :
    ∀ (L : List (String × BwpData)) (bs : List BwpProduct),
    (∀ p ∈ L, p.1 ≠ q) →
    findB (L.foldl applyPush bs) q = findB bs q
  | [], bs, _ => rfl
  | p :: L, bs, h => by
    rw [List.foldl_cons,
      findB_foldl_applyPush_ne q L (applyPush bs p) (fun x hx => h x (List.mem_cons_of_mem p hx)),
      findB_applyPush_ne bs p q (h p (List.mem_cons_self p L))]

theorem pushesFor_fst_mem (aL : List Product) (bL : List BwpProduct) :
    ∀ p ∈ pushesFor aL bL, ∃ x ∈ aL, p.1 = x.id := by
  intro p hp
  unfold pushesFor at hp
  rw [List.mem_filterMap] at hp
  obtain ⟨x, hx, hfx⟩ := hp
  refine ⟨x, hx, ?_⟩
  cases hda : decideAction x bL with
  | skipped => rw [hda] at hfx; simp at hfx
  | create => rw [hda] at hfx; simp at hfx; rw [← hfx]
  | update => rw [hda] at hfx; simp at hfx; rw [← hfx]

/-- C3 (amended) -- Idempotence of reconciliation, for product lists whose
Platform-A ids are pairwise distinct (the counterexample below shows the
unrestricted claim fails when the A list repeats an id): after a first run
that completed with every push succeeding, applying those pushes to the
Platform-B list and reconciling again yields `skipped` for every product. -/
theorem reconcile_idempotent (env : BatchEnv) (instId storeId : String)
    (aL : List Product) (bL : List BwpProduct)
    (recs : List SyncRecord) (pshs : List (String × BwpData))
    (hnd : (aL.map Product.id).Nodup)
    (hrun : runProducts env instId storeId bL aL [] [] = (recs, pshs, true)) :
    ∀ a ∈ aL, decideAction a (pshs.foldl applyPush bL) = .skipped := by
  have hp : pshs = pushesFor aL bL := by
    simpa using runProducts_true_pushes env instId storeId bL aL [] [] recs pshs hrun
  subst hp
  intro a ha
  obtain ⟨l1, l2, rfl⟩ := List.append_of_mem ha
  rw [List.map_append, List.map_cons] at hnd
  obtain ⟨-, hnd2, hdisj⟩ := List.nodup_append.1 hnd
  have hids1 : ∀ x ∈ l1, x.id ≠ a.id := by
    intro x hx he
    exact hdisj (List.mem_map_of_mem Product.id hx)
      (he ▸ List.mem_cons_self a.id (l2.map Product.id))
  have hids2 : ∀ x ∈ l2, x.id ≠ a.id := by
    intro x hx he
    exact (List.nodup_cons.1 hnd2).1 (he ▸ List.mem_map_of_mem Product.id hx)
  have hfr1 : ∀ p ∈ pushesFor l1 bL, p.1 ≠ a.id := by
    intro p hp
    obtain ⟨x, hx, hpx⟩ := pushesFor_fst_mem l1 bL p hp
    exact hpx ▸ hids1 x hx
  have hfr2 : ∀ p ∈ pushesFor l2 bL, p.1 ≠ a.id := by
    intro p hp
    obtain ⟨x, hx, hpx⟩ := pushesFor_fst_mem l2 bL p hp
    exact hpx ▸ hids2 x hx
  rw [show l1 ++ a :: l2 = (l1 ++ [a]) ++ l2 by simp] at *
  rw [show pushesFor ((l1 ++ [a]) ++ l2) bL
        = (pushesFor l1 bL ++ pushesFor [a] bL) ++ pushesFor l2 bL by
      unfold pushesFor
      rw [List.filterMap_append, List.filterMap_append]]
  rw [List.foldl_append, List.foldl_append]
  have hmid : findB ((pushesFor l2 bL).foldl applyPush
      ((pushesFor [a] bL).foldl applyPush ((pushesFor l1 bL).foldl applyPush bL))) a.id
      = findB ((pushesFor [a] bL).foldl applyPush
          ((pushesFor l1 bL).foldl applyPush bL)) a.id :=
    findB_foldl_applyPush_ne a.id (pushesFor l2 bL) _ hfr2
  have hbase : findB ((pushesFor l1 bL).foldl applyPush bL) a.id = findB bL a.id :=
    findB_foldl_applyPush_ne a.id (pushesFor l1 bL) bL hfr1
  cases hda : decideAction a bL with
  | skipped =>
    have hpa : pushesFor [a] bL = [] := by simp [pushesFor, List.filterMap_cons, hda]
    unfold decideAction at hda ⊢
    rw [hpa] at hmid ⊢
    simp only [List.foldl_nil] at hmid ⊢
    rw [hbase] at hmid
    rw [hmid]
    exact hda
  | create =>
    have hpa : pushesFor [a] bL = [(a.id, convertToBWPFormat a)] := by
      simp [pushesFor, List.filterMap_cons, hda]
    unfold decideAction
    rw [hpa] at hmid ⊢
    simp only [List.foldl_cons, List.foldl_nil] at hmid ⊢
    rw [findB_applyPush_self] at hmid
    rw [hmid]
    simp [compareProducts, convertToBWPFormat]
  | update =>
    have hpa : pushesFor [a] bL = [(a.id, convertToBWPFormat a)] := by
      simp [pushesFor, List.filterMap_cons, hda]
    unfold decideAction
    rw [hpa] at hmid ⊢
    simp only [List.foldl_cons, List.foldl_nil] at hmid ⊢
    rw [findB_applyPush_self] at hmid
    rw [hmid]
    simp [compareProducts, convertToBWPFormat]

/-- Witness for `reconcile_idempotent`: one product, absent on B; the first
run pushes a create, rerunning on the pushed-to B list yields `skipped`. -/
theorem reconcile_idempotent_witness :
    decideAction ⟨"p1", "Mug", "d", 999, 0⟩
      (([("p1", (⟨"Mug", "d", 999⟩ : BwpData))]).foldl applyPush []) = .skipped :=
  reconcile_idempotent
    { getA := fun _ => .ok [], getB := fun _ => .ok [], push := fun _ _ _ => .ok () }
    "i" "s" [⟨"p1", "Mug", "d", 999, 0⟩] [] [⟨"s", "p1", .create⟩]
    [("p1", ⟨"Mug", "d", 999⟩)] (by simp) rfl
    ⟨"p1", "Mug", "d", 999, 0⟩ (List.mem_singleton.mpr rfl)

/-- C3 (counterexample) -- Refutes the unrestricted claim: when the A list
repeats an id with different titles, the first run pushes both versions
(all pushes succeed), the second push overwrites the first, and the second
run classifies the first product as `update`, not `skipped`. -/
theorem reconcile_idempotence_counterexample :
    runProducts
      { getA := fun _ => .ok [], getB := fun _ => .ok [], push := fun _ _ _ => .ok () }
      "i" "s" [] [⟨"p", "X", "d", 1, 0⟩, ⟨"p", "Y", "d", 1, 0⟩] [] []
      = ([⟨"s", "p", .create⟩, ⟨"s", "p", .create⟩],
         [("p", ⟨"X", "d", 1⟩), ("p", ⟨"Y", "d", 1⟩)], true)
    ∧ decideAction ⟨"p", "X", "d", 1, 0⟩
        (([("p", (⟨"X", "d", 1⟩ : BwpData)), ("p", ⟨"Y", "d", 1⟩)]).foldl applyPush [])
      = .update := by
  exact ⟨rfl, rfl⟩

/-! ## Incremental (webhook) handler (`webhook.mjs`)

Given one `(handle, productId)` pair it fetches the single product from
both platforms and runs the same compare/push logic.  Unlike the batch
loop, a store with no `bwpInstallationId` makes it `throw`, which the
`catch` turns into the 500 "Failed to process webhook" response. -/

structure WebhookEnv where
  getStore : String -> Option Store
  getAProd : String -> String -> Except Unit Product
  getBProd : String -> String -> Except Unit BwpProduct
  push : String -> String -> BwpData -> Except Unit Unit

/-- Embeds the `webhook.mjs` handler (parameters already parsed from the
body; a missing or empty one is falsy in JS and yields the 400). -/
def webhookHandler (env : WebhookEnv) (handle productId : Option String) : Response :=
  match handle, productId with
  | some h, some pid =>
    if h == "" || pid == "" then ⟨400, "Missing required parameters"⟩
    else
      match env.getStore h with
      | none => ⟨500, "Failed to process webhook"⟩
      | some store =>
        match store.bwpInstallationId with
        | none => ⟨500, "Failed to process webhook"⟩
        | some inst =>
          match env.getAProd h pid with
          | .error _ => ⟨500, "Failed to process webhook"⟩
          | .ok a =>
            match env.getBProd inst pid with
            | .error _ => ⟨500, "Failed to process webhook"⟩
            | .ok b =>
              if compareProducts a b then
                match env.push inst pid (convertToBWPFormat a) with
                | .error _ => ⟨500, "Failed to process webhook"⟩
                | .ok _ => ⟨200, "Webhook processed successfully"⟩
              else ⟨200, "Webhook processed successfully"⟩
  | _, _ => ⟨400, "Missing required parameters"⟩

/-- C6 (amended) -- Tenants with no Platform-B installation id are treated
differently by the two modes: the batch loop skips such a store with
`continue` and no error, but the webhook handler throws for it, returning
the 500 "Failed to process webhook" error response instead of skipping. -/
theorem unlinked_tenant_handling :
    (∀ (env : BatchEnv) (s : Store) (rest : List Store)
       (recs : List SyncRecord) (pshs : List (String × BwpData)),
      s.bwpInstallationId = none →
      runStores env (s :: rest) recs pshs = runStores env rest recs pshs)
    ∧ (∀ (env : WebhookEnv) (h pid : String) (store : Store),
        env.getStore h = some store → store.bwpInstallationId = none →
        (h == "") = false → (pid == "") = false →
        webhookHandler env (some h) (some pid) = ⟨500, "Failed to process webhook"⟩) := by
  constructor
  · intro env s rest recs pshs hnone
    simp [runStores, hnone]
  · intro env h pid store hstore hnone hh hpid
    simp [webhookHandler, hh, hpid, hstore, hnone]

/-- Witness for `unlinked_tenant_handling`: an unlinked store at the head
of the batch is skipped (the run continues to the empty tail and reports
success), while the webhook handler returns the 500 error for it. -/
theorem unlinked_tenant_handling_witness :
    runStores
      { getA := fun _ => .ok [], getB := fun _ => .ok [], push := fun _ _ _ => .ok () }
      [⟨"shop-1", none⟩] [] [] = ([], [], true)
    ∧ webhookHandler
      { getStore := fun _ => some ⟨"shop-1", none⟩,
        getAProd := fun _ _ => .ok ⟨"p1", "Mug", "d", 999, 0⟩,
        getBProd := fun _ _ => .ok ⟨"p1", "Mug", "d", 999⟩,
        push := fun _ _ _ => .ok () }
      (some "shop-1") (some "p1") = ⟨500, "Failed to process webhook"⟩ := by
  constructor
  · rw [unlinked_tenant_handling.1
      { getA := fun _ => .ok [], getB := fun _ => .ok [], push := fun _ _ _ => .ok () }
      ⟨"shop-1", none⟩ [] [] [] rfl]
    rfl
  · exact unlinked_tenant_handling.2
      { getStore := fun _ => some ⟨"shop-1", none⟩,
        getAProd := fun _ _ => .ok ⟨"p1", "Mug", "d", 999, 0⟩,
        getBProd := fun _ _ => .ok ⟨"p1", "Mug", "d", 999⟩,
        push := fun _ _ _ => .ok () }
      "shop-1" "p1" ⟨"shop-1", none⟩ rfl rfl rfl rfl

/-- C6 (counterexample) -- Refutes the claim for incremental mode: a
webhook for a store whose record has no `bwpInstallationId` is not skipped
without error; the handler returns the 500 error response. -/
theorem unlinked_webhook_counterexample :
    webhookHandler
      { getStore := fun _ => some ⟨"shop-2", none⟩,
        getAProd := fun _ _ => .ok ⟨"p2", "Cup", "d", 5, 0⟩,
        getBProd := fun _ _ => .ok ⟨"p2", "Cup", "d", 5⟩,
        push := fun _ _ _ => .ok () }
      (some "shop-2") (some "p2") = ⟨500, "Failed to process webhook"⟩ := by
  exact rfl

/-! ## Key-value table model (DynamoDB put/get/delete) -/

/-- Reads an item by string key: first entry with the key (DynamoDB get). -/
def lookupTable {α : Type} (t : List (String × α)) (k : String) : Option α :=
  (t.find? (fun q => q.1 == k)).map (fun q => q.2)

/-- Deletes an item by string key (DynamoDB delete). -/
def removeTable {α : Type} (t : List (String × α)) (k : String) : List (String × α) :=
  t.filter (fun q => !(q.1 == k))

/-- Writes an item by string key, overwriting or inserting (DynamoDB put). -/
def upsertTable {α : Type} (t : List (String × α)) (k : String) (v : α) :
    List (String × α) :=
  if t.any (fun q => q.1 == k) then
    t.map (fun q => if q.1 == k then (q.1, v) else q)
  else t ++ [(k, v)]

theorem lookupTable_removeTable {α : Type} (t : List (String × α)) (k : String) :
    lookupTable (removeTable t k) k = none := by
  unfold lookupTable removeTable
  have h : (t.filter (fun q => !(q.1 == k))).find? (fun q => q.1 == k) = none := by
    rw [List.find?_eq_none]
    intro x hx
    have := (List.mem_filter.1 hx).2
    simp at this
    simp [this]
  rw [h]
  rfl

/-! ## Shopline install callback (`code/shoplineinstall/index.mjs`)

`handleCallback` validates `code`/`state`, loads the state record, checks
its `type`, exchanges the code for tokens, and only then writes the store
record and deletes the state record.  Any throw lands in the `catch`,
which returns a 500 response carrying the error message; all Dynamo writes
come after the token exchange. -/

structure SLStateRec where
  shop : String
  type : String
  expiry : Int
deriving DecidableEq, Repr

structure SLTokenResp where
  access_token : String
  refresh_token : String
  scope : String
deriving DecidableEq, Repr

structure SLStoreRec where
  accessToken : String
  refreshToken : String
  scope : String
deriving DecidableEq, Repr

structure SLState where
  stateTable : List (String × SLStateRec)
  storesTable : List (String × SLStoreRec)
deriving DecidableEq, Repr

structure SLEnv where
  exchange : String -> Except String SLTokenResp

/-- Embeds `handleCallback` of `code/shoplineinstall/index.mjs`.  Returns
the post-call store state together with the response; thrown errors become
the catch's 500 response with the error message as body. -/
def handleCallback (env : SLEnv) (st : SLState) (code state : Option String) :
    SLState × Response :=
  match code, state with
  | some c, some s =>
    if c == "" || s == "" then (st, ⟨500, "Missing required parameters"⟩)
    else
      match lookupTable st.stateTable s with
      | none => (st, ⟨500, "Invalid state"⟩)
      | some sr =>
        if !(sr.type == "shopline_install") then (st, ⟨500, "Invalid state"⟩)
        else
          match env.exchange c with
          | .error msg => (st, ⟨500, msg⟩)
          | .ok tok =>
            ({ stateTable := removeTable st.stateTable s,
               storesTable := upsertTable st.storesTable sr.shop
                 ⟨tok.access_token, tok.refresh_token, tok.scope⟩ },
             ⟨302, ""⟩)
  | _, _ => (st, ⟨500, "Missing required parameters"⟩)

/-! ## BWP (Buy with Prime) install flow
(`callback.mjs`, `handleBWPLaunch` / `handleBWPInstall` / `handleBWPSettings`)

`validateVerificationToken` requires the signed verification token, checks
its signature against the fixed public key (embedded abstractly as
`jwtVerify`), and compares the token's `requestHash` claim against a hash
recomputed from the request URL and body (`sha` abstracts SHA-256).
After validation, the `try` body of `handleBWPInstall` evaluates
`new GetCommand({...})`, but this module segment imports only
`DynamoDBDocumentClient` and `PutCommand` from the Dynamo document
library, so `GetCommand` is an unresolved reference: every invocation
that passes validation throws `ReferenceError` there, lands in the
`catch`, and returns the same 500 response.  No run of the handler
reaches the state lookup, the token exchange, or any write, so the
handler never succeeds and never changes stored state.  The structures
below still record the data shapes the unreachable text mentions
(`codeVerifier` state records, token-store records, the token-exchange
capability). -/

structure BwpPayload where
  requestHash : String
  installationId : String
deriving DecidableEq, Repr

structure BwpEvent where
  vtoken : Option String
  code : String
  state : String
  host : String
  rawPath : String
  body : Option String
deriving DecidableEq, Repr

inductive AuthErr where
  | missingToken
  | badSignature
  | hashMismatch
deriving DecidableEq, Repr

structure BwpTok where
  access_token : String
  refresh_token : String
deriving DecidableEq, Repr

structure BwpEnv where
  jwtVerify : String -> Option BwpPayload
  sha : String -> String
  bwpExchange : String -> String -> Except Unit BwpTok

/-- Embeds `calculateRequestHash`.  The source's defensive branch that
truncates the URL at a `verification-token` substring is omitted: with
API-Gateway v2 events `rawPath` carries no query string, so the branch
is dead on the deployed routes, and no theorem below depends on the
hash's value (only on whether it equals the token's claim). -/
def calculateRequestHash (env : BwpEnv) (e : BwpEvent) : String :=
  let url := "https://" ++ e.host ++ e.rawPath
  let bodyHash := match e.body with
    | some b => env.sha b
    | none => ""
  env.sha (url ++ bodyHash)

/-- Embeds `validateVerificationToken`: the three throw sites become the
three error causes. -/
def validateToken (env : BwpEnv) (e : BwpEvent) : Except AuthErr BwpPayload :=
  match e.vtoken with
  | none => .error .missingToken
  | some t =>
    match env.jwtVerify t with
    | none => .error .badSignature
    | some p =>
      if p.requestHash == calculateRequestHash env e then .ok p
      else .error .hashMismatch

structure BwpStateRec where
  codeVerifier : String
deriving DecidableEq, Repr

structure BwpTokenRec where
  token : String
  refresh_token : String
deriving DecidableEq, Repr

structure BwpState where
  stateTable : List (String × BwpStateRec)
  tokenStore : List (String × BwpTokenRec)
deriving DecidableEq, Repr

/-- Embeds `handleBWPInstall`; every throw is converted by its `catch`
into the single 500 response.  A failed validation throws directly; a
successful validation reaches the `new GetCommand({...})` expression,
whose constructor this module segment never imports, so that path throws
`ReferenceError` and ends in the same `catch`.  Either way the state is
untouched and the response is the catch's 500. -/
def handleBWPInstall (env : BwpEnv) (st : BwpState) (e : BwpEvent) :
    BwpState × Response :=
  match validateToken env e with
  | .error _ => (st, ⟨500, "BWP installation failed"⟩)
  | .ok _ => (st, ⟨500, "BWP installation failed"⟩)

/-- Embeds `handleBWPSettings`; its `catch` likewise collapses every
failure into one 500 response. -/
def handleBWPSettings (env : BwpEnv) (e : BwpEvent) : Response :=
  match validateToken env e with
  | .error _ => ⟨500, "Failed to retrieve BWP settings"⟩
  | .ok payload => ⟨200, payload.installationId⟩

/-- C4 -- Completing the install callback with a given `state` succeeds
at most once, in both flows.  Shopline (HMAC) flow: a callback that
completes successfully (302) has deleted the state record, so repeating
the call with the same `state` fails with the "Invalid state" error.
BWP (PKCE) flow: the handler can never succeed at all — the unimported
`GetCommand` constructor makes every call return the catch's 500 with
the stored state unchanged — so it completes successfully zero times and
the single-use property holds vacuously there. -/
theorem state_single_use :
    (∀ (env : SLEnv) (st : SLState) (c s : String),
      (handleCallback env st (some c) (some s)).2.statusCode = 302 →
      lookupTable ((handleCallback env st (some c) (some s)).1).stateTable s = none
      ∧ (handleCallback env ((handleCallback env st (some c) (some s)).1)
          (some c) (some s)).2 = ⟨500, "Invalid state"⟩)
    ∧ (∀ (benv : BwpEnv) (bst : BwpState) (e : BwpEvent),
        handleBWPInstall benv bst e = (bst, ⟨500, "BWP installation failed"⟩)) := by
  constructor
  · intro env st c s h302
    by_cases hcs : (c == "" || s == "") = true
    · simp [handleCallback, hcs] at h302
    · rw [Bool.not_eq_true] at hcs
      cases hlk : lookupTable st.stateTable s with
      | none => simp [handleCallback, hcs, hlk] at h302
      | some sr =>
        by_cases hty : (sr.type == "shopline_install") = true
        · cases hex : env.exchange c with
          | error msg => simp [handleCallback, hcs, hlk, hty, hex] at h302
          | ok tok =>
            constructor
            · simp [handleCallback, hcs, hlk, hty, hex]
              exact lookupTable_removeTable st.stateTable s
            · simp [handleCallback, hcs, hlk, hty, hex, lookupTable_removeTable]
        · rw [Bool.not_eq_true] at hty
          simp [handleCallback, hcs, hlk, hty] at h302
  · intro benv bst e
    cases hv : validateToken benv e with
    | error a => simp [handleBWPInstall, hv]
    | ok p => simp [handleBWPInstall, hv]

/-- Witness for `state_single_use` at a concrete successful Shopline
callback (the state record is gone and the replay gets "Invalid state")
and at a concrete BWP call with a validating token (still the 500, state
unchanged). -/
theorem state_single_use_witness :
    (lookupTable ((handleCallback (⟨fun _ => .ok ⟨"at", "rt", "sc"⟩⟩ : SLEnv)
        ⟨[("s1", ⟨"shopA", "shopline_install", 0⟩)], []⟩
        (some "c1") (some "s1")).1).stateTable "s1" = none
    ∧ (handleCallback (⟨fun _ => .ok ⟨"at", "rt", "sc"⟩⟩ : SLEnv)
        ((handleCallback (⟨fun _ => .ok ⟨"at", "rt", "sc"⟩⟩ : SLEnv)
          ⟨[("s1", ⟨"shopA", "shopline_install", 0⟩)], []⟩
          (some "c1") (some "s1")).1)
        (some "c1") (some "s1")).2 = ⟨500, "Invalid state"⟩)
    ∧ handleBWPInstall
        (⟨fun t => if t == "tok" then some ⟨"https://hX", "inst1"⟩ else none,
          fun s => s, fun _ _ => .ok ⟨"at", "rt"⟩⟩ : BwpEnv)
        ⟨[("st1", ⟨"cv"⟩)], []⟩ ⟨some "tok", "c", "st1", "h", "X", none⟩
      = (⟨[("st1", ⟨"cv"⟩)], []⟩, ⟨500, "BWP installation failed"⟩) :=
  ⟨state_single_use.1 (⟨fun _ => .ok ⟨"at", "rt", "sc"⟩⟩ : SLEnv)
    ⟨[("s1", ⟨"shopA", "shopline_install", 0⟩)], []⟩ "c1" "s1" rfl,
   state_single_use.2
    (⟨fun t => if t == "tok" then some ⟨"https://hX", "inst1"⟩ else none,
      fun s => s, fun _ _ => .ok ⟨"at", "rt"⟩⟩ : BwpEnv)
    ⟨[("st1", ⟨"cv"⟩)], []⟩ ⟨some "tok", "c", "st1", "h", "X", none⟩⟩

/-- C9 -- The BWP verifier's two failure causes are indistinguishable to
the caller: for any request failing the token-signature check and any
request failing the request-hash check, the install and settings handlers
return identical responses (status code and body), and neither failing
call changes any stored state. -/
theorem auth_failure_indistinguishable (env : BwpEnv) (st : BwpState)
    (e1 e2 : BwpEvent)
    (h1 : validateToken env e1 = .error .badSignature)
    (h2 : validateToken env e2 = .error .hashMismatch) :
    (handleBWPInstall env st e1).2 = (handleBWPInstall env st e2).2
    ∧ handleBWPSettings env e1 = handleBWPSettings env e2
    ∧ (handleBWPInstall env st e1).1 = st
    ∧ (handleBWPInstall env st e2).1 = st := by
  refine ⟨?_, ?_, ?_, ?_⟩ <;> simp [handleBWPInstall, handleBWPSettings, h1, h2]

/-- Witness for `auth_failure_indistinguishable` at a concrete
environment: an unverifiable token versus a verified token whose
`requestHash` claim does not match the recomputed hash. -/
theorem auth_failure_indistinguishable_witness :
    (handleBWPInstall
        (⟨fun t => if t == "good" then some ⟨"WRONG", "inst"⟩ else none,
          fun s => s, fun _ _ => .ok ⟨"at", "rt"⟩⟩ : BwpEnv)
        ⟨[], []⟩ ⟨some "bad", "c", "s", "h", "P", none⟩).2
      = (handleBWPInstall
        (⟨fun t => if t == "good" then some ⟨"WRONG", "inst"⟩ else none,
          fun s => s, fun _ _ => .ok ⟨"at", "rt"⟩⟩ : BwpEnv)
        ⟨[], []⟩ ⟨some "good", "c", "s", "h", "P", none⟩).2 :=
  (auth_failure_indistinguishable
    (⟨fun t => if t == "good" then some ⟨"WRONG", "inst"⟩ else none,
      fun s => s, fun _ _ => .ok ⟨"at", "rt"⟩⟩ : BwpEnv)
    ⟨[], []⟩ ⟨some "bad", "c", "s", "h", "P", none⟩
    ⟨some "good", "c", "s", "h", "P", none⟩ rfl rfl).1

/-- C10 -- The Shopline install callback is atomic on token-exchange
failure: when the parameters are present, the state record is valid, and
the exchange call fails, the handler returns the 500 error response with
the failure message and the whole store state (both the state table and
the stores table) is returned unchanged. -/
theorem exchange_failure_atomic (env : SLEnv) (st : SLState) (c s : String)
    (sr : SLStateRec) (msg : String)
    (hc : (c == "") = false) (hs : (s == "") = false)
    (hlk : lookupTable st.stateTable s = some sr)
    (hty : (sr.type == "shopline_install") = true)
    (hex : env.exchange c = .error msg) :
    handleCallback env st (some c) (some s) = (st, ⟨500, msg⟩) := by
  simp [handleCallback, hc, hs, hlk, hty, hex]

/-- Witness for `exchange_failure_atomic` at a concrete store state and a
failing exchange. -/
theorem exchange_failure_atomic_witness :
    handleCallback (⟨fun _ => .error "boom"⟩ : SLEnv)
      ⟨[("s1", ⟨"shopA", "shopline_install", 0⟩)], []⟩
      (some "c1") (some "s1")
      = (⟨[("s1", ⟨"shopA", "shopline_install", 0⟩)], []⟩, ⟨500, "boom"⟩) :=
  exchange_failure_atomic (⟨fun _ => .error "boom"⟩ : SLEnv)
    ⟨[("s1", ⟨"shopA", "shopline_install", 0⟩)], []⟩ "c1" "s1"
    ⟨"shopA", "shopline_install", 0⟩ "boom" rfl rfl rfl rfl rfl

/-! ## Token refresh sweep (`refresh.mjs` segment of `callback.mjs`)

The scheduled handler iterates over the per-handle token map; each
iteration sits in its own try/catch.  A token whose `expiresAt` is more
than 24 hours away is skipped (`continue`); otherwise a refresh call is
attempted, and on failure the caught error leaves that handle's entry
unchanged while the loop proceeds with the next handle. -/

structure TokenData where
  accessToken : String
  refreshToken : String
  expiresAt : Int
deriving DecidableEq, Repr

structure RefreshResp where
  access_token : String
  refresh_token : String
  expires_in : Int
deriving DecidableEq, Repr

structure RefreshEnv where
  refreshCall : String -> String -> Option RefreshResp

/-- Renewal window of the refresh check: 24 hours in milliseconds. -/
def renewWindowMs : Int := 24 * 60 * 60 * 1000

/-- Embeds one iteration of the refresh loop: the new token data for the
handle, plus whether a refresh was attempted. -/
def processOne (env : RefreshEnv) (now : Int) (h : String) (td : TokenData) :
    TokenData × Bool :=
  if td.expiresAt > now + renewWindowMs then (td, false)
  else
    match env.refreshCall h td.refreshToken with
    | none => (td, true)
    | some r =>
      (⟨r.access_token, r.refresh_token, now + r.expires_in * 1000⟩, true)

/-- Embeds the whole sweep over the token map. -/
def refreshSweep (env : RefreshEnv) (now : Int)
    (tokens : List (String × TokenData)) : List (String × TokenData) :=
  tokens.map (fun p => (p.1, (processOne env now p.1 p.2).1))

/-- C8 -- The sweep attempts a refresh exactly for the records whose
`expiresAt` is within the 24-hour window; a failing refresh call leaves
that record unchanged; each entry of the map is processed (its result
appears in the sweep output); and the result for a handle other than a
failing tenant `k` is unaffected by how tenant `k`'s call behaves. -/
theorem refresh_sweep_isolated (e1 e2 : RefreshEnv) (now : Int)
    (tokens : List (String × TokenData)) (k h : String) (td : TokenData) :
    ((processOne e1 now h td).2 = true ↔ td.expiresAt ≤ now + renewWindowMs)
    ∧ (e1.refreshCall h td.refreshToken = none → (processOne e1 now h td).1 = td)
    ∧ ((h, td) ∈ tokens → (h, (processOne e1 now h td).1) ∈ refreshSweep e1 now tokens)
    ∧ ((∀ (h2 rt : String), h2 ≠ k → e1.refreshCall h2 rt = e2.refreshCall h2 rt) →
        h ≠ k → processOne e1 now h td = processOne e2 now h td) := by
  refine ⟨?_, ?_, ?_, ?_⟩
  · unfold processOne
    by_cases hw : td.expiresAt > now + renewWindowMs
    · rw [if_pos hw]
      simp
      omega
    · rw [if_neg hw]
      cases e1.refreshCall h td.refreshToken <;> simp <;> omega
  · intro hfail
    unfold processOne
    by_cases hw : td.expiresAt > now + renewWindowMs
    · rw [if_pos hw]
    · rw [if_neg hw, hfail]
  · intro hmem
    exact List.mem_map.mpr ⟨(h, td), hmem, rfl⟩
  · intro hagree hk
    unfold processOne
    rw [hagree h td.refreshToken hk]

/-- Witness for `refresh_sweep_isolated`: a concrete sweep where every
refresh call fails; the expiring record is attempted and left unchanged,
its entry is in the sweep output, and its result agrees with the
same environment (trivially differing only at `k`). -/
theorem refresh_sweep_isolated_witness :
    ((⟨"a", "r", 1000⟩ : TokenData).expiresAt ≤ 0 + renewWindowMs)
    ∧ (processOne (⟨fun _ _ => none⟩ : RefreshEnv) 0 "t1" ⟨"a", "r", 1000⟩).1
        = ⟨"a", "r", 1000⟩
    ∧ ("t1", (processOne (⟨fun _ _ => none⟩ : RefreshEnv) 0 "t1" ⟨"a", "r", 1000⟩).1)
        ∈ refreshSweep (⟨fun _ _ => none⟩ : RefreshEnv) 0 [("t1", ⟨"a", "r", 1000⟩)]
    ∧ processOne (⟨fun _ _ => none⟩ : RefreshEnv) 0 "t1" ⟨"a", "r", 1000⟩
        = processOne (⟨fun _ _ => none⟩ : RefreshEnv) 0 "t1" ⟨"a", "r", 1000⟩ := by
  have h := refresh_sweep_isolated (⟨fun _ _ => none⟩ : RefreshEnv)
    (⟨fun _ _ => none⟩ : RefreshEnv) 0 [("t1", ⟨"a", "r", 1000⟩)] "k" "t1" ⟨"a", "r", 1000⟩
  exact ⟨h.1.mp rfl, h.2.1 rfl, h.2.2.1 (List.mem_singleton.mpr rfl),
    h.2.2.2 (fun _ _ _ => rfl) (by decide)⟩

/-! ## Shopline signature verifier
(`generateSign`/`verifySign` in `callback.mjs`, both variants)

Canonicalization: sort the parameter keys (JS `Array.prototype.sort`,
lexicographic by code unit — embedded as the char-wise comparator
`strLeb`, identical on the ASCII keys involved), join `key=value` pairs
with `&`, and apply the keyed hash.  The hash primitive is abstracted as a
parameter `mac : secret -> message -> digest`; the md5 variant
instantiates it with `md5 (message ++ secret)` and the install variant
with `hmacSHA256 secret message`.  `verifySign` strips the `sign` key from
the parameters, recomputes, and compares with strict equality. -/

/-- Lexicographic comparison of char lists by code point, the JS sort
comparator. -/
def charsLe : List Char -> List Char -> Bool
  | [], _ => true
  | _ :: _, [] => false
  | c :: cs, d :: ds =>
    if c.toNat < d.toNat then true
    else if d.toNat < c.toNat then false
    else charsLe cs ds

/-- Whether string `a` sorts no later than string `b`. -/
def strLeb (a b : String) : Bool :=
  charsLe a.data b.data

theorem charsLe_total : ∀ xs ys : List Char,
    charsLe xs ys = true ∨ charsLe ys xs = true
  | [], _ => Or.inl rfl
  | _ :: _, [] => Or.inr rfl
  | x :: xs, y :: ys => by
    by_cases h1 : x.toNat < y.toNat
    · left; simp [charsLe, h1]
    · by_cases h2 : y.toNat < x.toNat
      · right; simp [charsLe, h2]
      · rcases charsLe_total xs ys with h | h
        · left; simp [charsLe, h1, h2, h]
        · right; simp [charsLe, h1, h2, h]

theorem charsLe_trans : ∀ xs ys zs : List Char,
    charsLe xs ys = true → charsLe ys zs = true → charsLe xs zs = true
  | [], _, _, _, _ => rfl
  | _ :: _, [], _, h1, _ => by cases h1
  | _ :: _, _ :: _, [], _, h2 => by cases h2
  | x :: xs, y :: ys, z :: zs, h1, h2 => by
    simp only [charsLe] at h1 h2 ⊢
    by_cases a1 : x.toNat < y.toNat
    · by_cases a2 : y.toNat < z.toNat
      · simp [Nat.lt_trans a1 a2]
      · by_cases a3 : z.toNat < y.toNat
        · rw [if_neg a2, if_pos a3] at h2; cases h2
        · have hyz : y.toNat = z.toNat :=
            Nat.le_antisymm (Nat.not_lt.1 a3) (Nat.not_lt.1 a2)
          simp [hyz ▸ a1]
    · by_cases a1b : y.toNat < x.toNat
      · rw [if_neg a1, if_pos a1b] at h1; cases h1
      · have hxy : x.toNat = y.toNat :=
          Nat.le_antisymm (Nat.not_lt.1 a1b) (Nat.not_lt.1 a1)
        rw [if_neg a1, if_neg a1b] at h1
        by_cases a2 : y.toNat < z.toNat
        · simp [hxy ▸ a2]
        · by_cases a3 : z.toNat < y.toNat
          · rw [if_neg a2, if_pos a3] at h2; cases h2
          · rw [if_neg a2, if_neg a3] at h2
            have hxz1 : ¬ x.toNat < z.toNat := by omega
            have hxz2 : ¬ z.toNat < x.toNat := by omega
            rw [if_neg hxz1, if_neg hxz2]
            exact charsLe_trans xs ys zs h1 h2

instance : DecidableRel (fun a b : String => strLeb a b = true) :=
  fun a b => instDecidableEqBool (strLeb a b) true

instance : IsTotal String (fun a b : String => strLeb a b = true) :=
  ⟨fun a b => charsLe_total a.data b.data⟩

instance : IsTrans String (fun a b : String => strLeb a b = true) :=
  ⟨fun a b c => charsLe_trans a.data b.data c.data⟩

/-- The keys of the parameter object, sorted (embeds
`Object.keys(params).sort()`). -/
def sortedKeys (ps : List (String × String)) : List String :=
  (ps.map Prod.fst).insertionSort (fun a b => strLeb a b = true)

/-- Embeds the canonical string: sorted keys rebuilt into `key=value`
pairs joined with `&`. -/
def canonicalString (ps : List (String × String)) : String :=
  String.intercalate "&"
    ((sortedKeys ps).map (fun k => k ++ "=" ++ ((lookupTable ps k).getD "")))

/-- Embeds `generateSign` up to the abstract keyed-hash primitive. -/
def generateSign (mac : String -> String -> String)
    (ps : List (String × String)) (secret : String) : String :=
  mac secret (canonicalString ps)

/-- Embeds `verifySign`: `const (sign, ...rest) = params`, recompute over
`rest`, strict-compare (a missing `sign` compares unequal). -/
def verifySign (mac : String -> String -> String)
    (ps : List (String × String)) (secret : String) : Bool :=
  match lookupTable ps "sign" with
  | none => false
  | some sg => sg == generateSign mac (removeTable ps "sign") secret

/-- JS falsiness of a query parameter: absent or empty. -/
def present : Option String -> Bool
  | some s => !(s == "")
  | none => false

inductive AuthOutcome where
  | missingParams
  | invalidSignature
  | accepted
deriving DecidableEq, Repr

/-- Embeds the auth phase of the install handler: the required-parameter
check (`!appkey || !handle || !timestamp || !sign` -> 400) followed by
signature verification (-> 401 on mismatch). -/
def installAuth (mac : String -> String -> String) (secret : String)
    (ps : List (String × String)) : AuthOutcome :=
  if !(present (lookupTable ps "appkey")) || !(present (lookupTable ps "handle"))
      || !(present (lookupTable ps "timestamp")) || !(present (lookupTable ps "sign")) then
    .missingParams
  else if verifySign mac ps secret then .accepted
  else .invalidSignature

/-- C7 -- The verifier rejects any request missing one of appkey, handle,
timestamp, sign; with all present it accepts exactly when the declared
`sign` equals the keyed hash of the canonical string of the remaining
parameters; and the canonical key sequence is sorted and is a permutation
of the parameter keys (the canonicalization really sorts, losing and
inventing nothing). -/
theorem hmac_verifier_correct (mac : String -> String -> String)
    (secret : String) (ps : List (String × String)) :
    ((present (lookupTable ps "appkey") = false
        ∨ present (lookupTable ps "handle") = false
        ∨ present (lookupTable ps "timestamp") = false
        ∨ present (lookupTable ps "sign") = false) →
      installAuth mac secret ps = .missingParams)
    ∧ (present (lookupTable ps "appkey") = true →
       present (lookupTable ps "handle") = true →
       present (lookupTable ps "timestamp") = true →
       present (lookupTable ps "sign") = true →
       (installAuth mac secret ps = .accepted ↔
         lookupTable ps "sign"
           = some (mac secret (canonicalString (removeTable ps "sign")))))
    ∧ List.Sorted (fun a b : String => strLeb a b = true) (sortedKeys ps)
    ∧ (sortedKeys ps).Perm (ps.map Prod.fst) := by
  refine ⟨?_, ?_, ?_, ?_⟩
  · intro h
    rcases h with h | h | h | h <;> simp [installAuth, h]
  · intro h1 h2 h3 h4
    simp only [installAuth, h1, h2, h3, h4, Bool.not_true, Bool.or_self,
      Bool.false_or, Bool.or_false, if_false]
    cases hsg : lookupTable ps "sign" with
    | none => rw [hsg] at h4; cases h4
    | some sg =>
      simp only [verifySign, hsg, generateSign]
      by_cases he : (sg == mac secret (canonicalString (removeTable ps "sign"))) = true
      · simp [he, (beq_iff_eq ..).1 he]
      · rw [Bool.not_eq_true] at he
        simp only [he, if_false]
        constructor
        · intro hco; cases hco
        · intro hco
          have : sg = mac secret (canonicalString (removeTable ps "sign")) :=
            Option.some.inj hco
          rw [this] at he
          simp at he
  · exact List.sorted_insertionSort _ _
  · exact List.perm_insertionSort _ _

/-- Witness for `hmac_verifier_correct`: a concrete keyed hash, a secret,
and a parameter set (keys deliberately out of order) whose declared sign
is the hash of the canonical string; the verifier accepts it. -/
theorem hmac_verifier_correct_witness :
    installAuth (fun se msg => se ++ "|" ++ msg) "k"
      [("handle", "h"), ("appkey", "a"), ("timestamp", "1"),
       ("sign", "k|appkey=a&handle=h&timestamp=1")] = AuthOutcome.accepted :=
  ((hmac_verifier_correct (fun se msg => se ++ "|" ++ msg) "k"
      [("handle", "h"), ("appkey", "a"), ("timestamp", "1"),
       ("sign", "k|appkey=a&handle=h&timestamp=1")]).2.1
    rfl rfl rfl rfl).mpr rfl

end BwpSync
